import Mathlib

/-
Verification development for the meeting-scheduler negotiation core
(`participant_agent.py` and `negotiator_agent.py`).

Modelling choices, used consistently below:

* A timestamp is a pair of an absolute instant (minutes since a fixed epoch,
  UTC) and the UTC offset (minutes) carried by the ISO-8601 literal.  Two ISO
  strings are equal exactly when both the instant and the carried offset are
  equal, which is what the source's string-equality comparisons test; aware
  `datetime` comparisons and `astimezone` act on the instant alone.
* Scores, which the source computes with Python floats, are modelled as exact
  rationals (`ℚ`); the constants 0.7, 0.3, 0.5, 0.4, 0.2, 0.6, 0.8 appear as
  7/10, 3/10, 1/2, 2/5, 1/5, 3/5, 4/5.
* Python's `sorted(..., key=..., reverse=True)` is a stable descending sort;
  `sortDesc` below is the (unique) stable sort for the same ordering.
* Python's `set` of slot keys has an unspecified iteration order; it is
  modelled deterministically as first-occurrence order (`dedupKeys`).  No
  membership fact depends on this choice.
* `try/except` around participant calls never fires in the model (the modelled
  callees are total), so the exception branches of the source are dead here.
-/

/-- A timezone-aware timestamp: absolute instant in minutes since the epoch,
plus the UTC offset (in minutes) embedded in its ISO-8601 rendering. -/
structure TS where
  instant : Int
  offset : Int
deriving DecidableEq

/-- Wall-clock minutes shown by the literal (`datetime` field values). -/
def TS.localMinutes (t : TS) : Int := t.instant + t.offset

/-- The `datetime.hour` field of the timestamp (0–23, wall clock). -/
def TS.hour (t : TS) : Int := (t.localMinutes % 1440) / 60

/-- Hour of the instant as seen from a timezone with the given offset:
`start_time.astimezone(participant_tz).hour`. -/
def localHourAt (instant tzOffset : Int) : Int := ((instant + tzOffset) % 1440) / 60

/-- Wall-clock minute-of-day of a timestamp (0–1439). -/
def localMinuteOfDay (t : TS) : Int := t.localMinutes % 1440

/-- A calendar event, reduced to its interval; `Summary`/attendee fields are
display-only in the source and play no role in any claim. -/
structure CalendarEvent where
  startTime : TS
  endTime : TS
deriving DecidableEq

def morningStr : String := "morning"

def afternoonStr : String := "afternoon"

def eveningStr : String := "evening"

/-- A participant's preference dictionary with the source's `.get` defaults
already resolved (`preferred_times`, `buffer_minutes`, `avoid_lunch`,
`seniority_weight`, `timezone` as a fixed UTC offset in minutes). -/
structure Preferences where
  preferredTimes : List String
  bufferMinutes : Int
  avoidLunch : Bool
  seniorityWeight : ℚ
  timezoneOffset : Int
deriving DecidableEq

structure Participant where
  email : String
  calendar : List CalendarEvent
  preferences : Preferences
deriving DecidableEq

/-- `ParticipantAgent._has_conflict`, abstracted over the event list and the
buffer exactly as the spec's `hasConflict(candidate, events, bufferMinutes)`
contract presents it: the candidate is expanded by the buffer on both ends and
a conflict is any event overlapping it, half-open-interval semantics.  Aware
`datetime` comparison compares instants regardless of the carried offset. -/
def has_conflict (startT endT : TS) (events : List CalendarEvent)
    (bufferMinutes : Int) : Bool :=
  events.any fun ev =>
    let bufferedStart := startT.instant - bufferMinutes
    let bufferedEnd := endT.instant + bufferMinutes
    !(decide (bufferedEnd ≤ ev.startTime.instant) ||
      decide (bufferedStart ≥ ev.endTime.instant))

/-- The method form: the buffer comes from the participant's preferences. -/
def Participant.hasConflict (p : Participant) (startT endT : TS) : Bool :=
  has_conflict startT endT p.calendar p.preferences.bufferMinutes

/-- `ParticipantAgent._calculate_preference_score`: base 1/2, one period bonus
(elif chain on the start's wall-clock hour), lunch penalty keyed on the start
hour alone, seniority scaling, clamp to [0, 1]. -/
def calculate_preference_score (p : Participant) (startT : TS) : ℚ :=
  let hour := startT.hour
  let prefs := p.preferences.preferredTimes
  let score : ℚ := 1/2
  let score :=
    if morningStr ∈ prefs ∧ 9 ≤ hour ∧ hour < 12 then score + 3/10
    else if afternoonStr ∈ prefs ∧ 13 ≤ hour ∧ hour < 17 then score + 3/10
    else if eveningStr ∈ prefs ∧ 17 ≤ hour ∧ hour < 20 then score + 1/5
    else score
  let score :=
    if p.preferences.avoidLunch ∧ 12 ≤ hour ∧ hour < 14 then score - 2/5 else score
  let score := score * (7/10 + 3/5 * p.preferences.seniorityWeight)
  max 0 (min 1 score)

inductive Decision
  | ACCEPT
  | CONDITIONAL_ACCEPT
  | REJECT
deriving DecidableEq

def scheduleConflictReason : String := "schedule_conflict"

def preferenceBasedReason : String := "preference_based"

/-- One participant's answer to a proposed slot (the fields of the dict
returned by `evaluate_proposal` that later code reads). -/
structure Evaluation where
  decision : Decision
  reason : String
  preferenceScore : ℚ
deriving DecidableEq

/-- `ParticipantAgent.evaluate_proposal`: calendar conflict ⇒ REJECT with
score 0; otherwise the decision comes from fixed thresholds on the preference
score (≥ 0.7 ACCEPT, ≥ 0.4 CONDITIONAL_ACCEPT, else REJECT), and the returned
score is the raw preference score in every preference-based branch. -/
def evaluate_proposal (p : Participant) (startT endT : TS) : Evaluation :=
  if p.hasConflict startT endT then
    { decision := .REJECT, reason := scheduleConflictReason, preferenceScore := 0 }
  else
    let s := calculate_preference_score p startT
    if 7/10 ≤ s then
      { decision := .ACCEPT, reason := preferenceBasedReason, preferenceScore := s }
    else if 2/5 ≤ s then
      { decision := .CONDITIONAL_ACCEPT, reason := preferenceBasedReason,
        preferenceScore := s }
    else
      { decision := .REJECT, reason := preferenceBasedReason, preferenceScore := s }

/-- Stable insertion into a descending-sorted list: the new element goes
before the first strictly smaller key, after equal keys already present. -/
def insDesc (key : α → ℚ) (x : α) : List α → List α
  | [] => [x]
  | y :: ys => if key y ≤ key x then x :: y :: ys else y :: insDesc key x ys

/-- Stable descending sort by a rational key — the behaviour of Python's
`sorted(lst, key=..., reverse=True)` (Timsort is stable; a stable sort for a
total preorder is unique, so insertion sort is an exact model). -/
def sortDesc (key : α → ℚ) : List α → List α
  | [] => []
  | x :: xs => insDesc key x (sortDesc key xs)

/-- A slot offered by one participant (`find_available_slots` list entry). -/
structure AvailableSlot where
  startTime : TS
  endTime : TS
  preferenceScore : ℚ
deriving DecidableEq

/-- `ParticipantAgent.find_available_slots`: candidate starts every 15 minutes
from 09:00 while `start + duration ≤ 18:00` (participant-local wall clock on
the target date), conflicting candidates dropped, the rest scored and sorted
by preference score descending.  `dateBase` is the wall-clock minute count of
the target date's local midnight; the source's `while` loop is rendered as a
filter over the 37 possible step indices (index 36 = 18:00 itself, admitted
only when the duration is ≤ 0, exactly as in the loop guard; for the
nonsensical negative durations the source's loop would run past 18:00,
which this rendering does not follow). -/
def find_available_slots (p : Participant) (dateBase durationMins : Int) :
    List AvailableSlot :=
  let off := p.preferences.timezoneOffset
  let candidates := (List.range 37).filterMap fun k =>
    let startLocal := dateBase + 540 + 15 * (k : Int)
    if startLocal + durationMins ≤ dateBase + 1080 then
      let s : TS := ⟨startLocal - off, off⟩
      let e : TS := ⟨startLocal + durationMins - off, off⟩
      if p.hasConflict s e then none
      else some { startTime := s, endTime := e,
                  preferenceScore := calculate_preference_score p s }
    else none
  sortDesc (fun slot => slot.preferenceScore) candidates

/-- First-occurrence deduplication: the deterministic model of the Python
`set` the source accumulates slot keys in (set iteration order is unspecified
in Python; only membership facts are claimed about it, and they are
order-independent). -/
def dedupKeys (l : List (TS × TS)) : List (TS × TS) :=
  l.foldl (fun acc k => if k ∈ acc then acc else acc ++ [k]) []

/-- `NegotiatorAgent._find_common_time_slots`: empty input dict ⇒ `[]`;
otherwise collect every `(start_time, end_time)` key occurring in any
participant's list and keep the keys present (by exact equality of both
ISO strings, i.e. of both `TS` components) in every participant's list.
The dict is modelled as an insertion-ordered association list; the unused
`duration_mins` parameter of the source is omitted. -/
def find_common_time_slots (allSlots : List (String × List AvailableSlot)) :
    List (TS × TS) :=
  if allSlots.isEmpty then []
  else
    let allTimeSlots := dedupKeys <| allSlots.flatMap fun entry =>
      entry.2.map fun slot => (slot.startTime, slot.endTime)
    allTimeSlots.filter fun k =>
      allSlots.all fun entry =>
        entry.2.any fun slot => slot.startTime == k.1 && slot.endTime == k.2

/-- `NegotiatorAgent._calculate_consensus_score`: running sum of the raw
`preference_score` of each participant's evaluation and a count of evaluated
participants (every evaluation succeeds in the model), then the mean, with 0
for an empty participant list. -/
def calculate_consensus_score (ps : List Participant) (startT endT : TS) : ℚ :=
  let acc := ps.foldl
    (fun (acc : ℚ × Nat) p =>
      (acc.1 + (evaluate_proposal p startT endT).preferenceScore, acc.2 + 1))
    ((0 : ℚ), (0 : Nat))
  if 0 < acc.2 then acc.1 / (acc.2 : ℚ) else 0

/-- The business-hours tier of `_calculate_timezone_fairness`'s if-chain,
keyed on the participant-local hour.  All three guards of the source are
inclusive on both ends (`9 <= hour <= 17`, `8 <= hour <= 18`,
`7 <= hour <= 19`). -/
def tz_tier (hour : Int) : ℚ :=
  if 9 ≤ hour ∧ hour ≤ 17 then 1
  else if 8 ≤ hour ∧ hour ≤ 18 then 4/5
  else if 7 ≤ hour ∧ hour ≤ 19 then 3/5
  else 1/5

/-- `NegotiatorAgent._calculate_timezone_fairness`: mean over participants of
the tier of the slot start's hour in that participant's timezone; 1/2 when
there are no participants (the source's `else 0.5`). -/
def calculate_timezone_fairness (ps : List Participant) (startT : TS) : ℚ :=
  let scores := ps.map fun p =>
    tz_tier (localHourAt startT.instant p.preferences.timezoneOffset)
  if scores.isEmpty then 1/2 else scores.sum / (scores.length : ℚ)

/-- A consensus slot with its scores (`scored_slots` entry of
`_find_alternative_slots`). -/
structure ScoredSlot where
  startTime : TS
  endTime : TS
  consensusScore : ℚ
  timezoneFairness : ℚ
  overallScore : ℚ
deriving DecidableEq

/-- The per-participant slot collection loop of `_find_alternative_slots`
(the `all_available_slots` dict, in participant order). -/
def collect_available_slots (ps : List Participant) (dateBase durationMins : Int) :
    List (String × List AvailableSlot) :=
  ps.map fun p => (p.email, find_available_slots p dateBase durationMins)

/-- `NegotiatorAgent._find_alternative_slots`: intersect the per-participant
slot lists, score every common slot (consensus, timezone fairness,
`overall = consensus * 0.7 + fairness * 0.3`), sort by overall score
descending (stable) and keep the top 10. -/
def find_alternative_slots (ps : List Participant) (dateBase durationMins : Int) :
    List ScoredSlot :=
  let allAvailable := collect_available_slots ps dateBase durationMins
  let commonSlots := find_common_time_slots allAvailable
  let scoredSlots := commonSlots.map fun k =>
    let c := calculate_consensus_score ps k.1 k.2
    let f := calculate_timezone_fairness ps k.1
    { startTime := k.1, endTime := k.2, consensusScore := c, timezoneFairness := f,
      overallScore := c * (7/10) + f * (3/10) : ScoredSlot }
  (sortDesc (fun slot => slot.overallScore) scoredSlots).take 10

/-- Result of `NegotiatorAgent._evaluate_specific_time`: the conflict list
records the emails of participants whose evaluation decision is REJECT
(whatever the reason), success means that list is empty, and the consensus
score is the plain mean of all returned preference scores. -/
structure SpecificTimeResult where
  success : Bool
  evaluations : List Evaluation
  conflicts : List String
  consensusScore : ℚ
deriving DecidableEq

def evaluate_specific_time (ps : List Participant) (startT endT : TS) :
    SpecificTimeResult :=
  let evaluations := ps.map fun p => evaluate_proposal p startT endT
  let conflicts :=
    (ps.filter fun p =>
      (evaluate_proposal p startT endT).decision == Decision.REJECT).map
      (fun p => p.email)
  { success := conflicts.isEmpty
    evaluations := evaluations
    conflicts := conflicts
    consensusScore :=
      if evaluations.isEmpty then 0
      else (evaluations.map (fun ev => ev.preferenceScore)).sum /
        (evaluations.length : ℚ) }

/-- Word characters for the `\b(\d+)\b` regex of `_parse_llm_selection`. -/
def isWordChar (c : Char) : Bool := c.isAlphanum || c == '_'

/-- Maximal word-character runs of a character list (second argument is the
reversed run accumulated so far). -/
def wordRuns : List Char → List Char → List (List Char)
  | [], acc => if acc.isEmpty then [] else [acc.reverse]
  | c :: cs, acc =>
    if isWordChar c then wordRuns cs (c :: acc)
    else if acc.isEmpty then wordRuns cs []
    else acc.reverse :: wordRuns cs []

/-- Decimal value of a digit run (`int(...)` on the matched group). -/
def digitValue (cs : List Char) : Nat :=
  cs.foldl (fun n c => 10 * n + (c.toNat - 48)) 0

/-- `NegotiatorAgent._parse_llm_selection`: the first `\b(\d+)\b` match of
the response — a maximal word-character run consisting solely of digits —
is taken (such a match is never negative), and the result is
`min(selected, max_options - 1)`; no match ⇒ 0. -/
def parse_llm_selection (llmResponse : String) (maxOptions : Int) : Int :=
  let runs := wordRuns llmResponse.toList []
  let numbers := runs.filter fun r => !r.isEmpty && r.all Char.isDigit
  match numbers with
  | [] => 0
  | r :: _ => min (digitValue r : Int) (maxOptions - 1)

/-- The fields of `_negotiate_best_slot`'s result dict that later code reads
(its `success` field is the constant `True`, its `conflicts` the constant
`[]`). -/
structure BestSlotResult where
  slot : ScoredSlot
  evaluations : List Evaluation
  consensusScore : ℚ
deriving DecidableEq

/-- `NegotiatorAgent._negotiate_best_slot`.  The external reasoning oracle is
modelled as `Option String`: `none` covers every failure of the `try` block
(call error, timeout — `selected_index = 0`), `some response` a reply parsed
by `_parse_llm_selection` against the FULL alternatives list length (the
prompt shows only the top 5, but the clamp bound is `len(alternative_slots)`).
The index is always in range, so the list indexing is total (`getD`). -/
def negotiate_best_slot (oracle : Option String) (ps : List Participant)
    (alternativeSlots : List ScoredSlot) : Option BestSlotResult :=
  match alternativeSlots with
  | [] => none
  | first :: rest =>
    let selectedIndex : Int :=
      match oracle with
      | none => 0
      | some llmResponse =>
        parse_llm_selection llmResponse ((first :: rest).length : Int)
    let best := (first :: rest).getD selectedIndex.toNat first
    let finalEvaluations := ps.map fun p =>
      evaluate_proposal p best.startTime best.endTime
    some { slot := best, evaluations := finalEvaluations,
           consensusScore := best.overallScore }

/-- The fields of the negotiator's response dicts that the claims mention:
`success`, the scheduled slot, `alternatives_considered` (top 5 on success,
empty on failure), the failure `reason`, and the summary's consensus score. -/
structure NegotiationResult where
  success : Bool
  scheduledSlot : Option (TS × TS)
  alternativesConsidered : List ScoredSlot
  failureReason : Option String
  consensusScore : ℚ
deriving DecidableEq

/-- `NegotiatorAgent._create_success_response`. -/
def create_success_response (startT endT : TS) (consensus : ℚ)
    (alternatives : List ScoredSlot) : NegotiationResult :=
  { success := true, scheduledSlot := some (startT, endT),
    alternativesConsidered := alternatives.take 5, failureReason := none,
    consensusScore := consensus }

def noSlotsReason : String := "No available slots found"

/-- `NegotiatorAgent._create_failure_response`. -/
def create_failure_response (reason : String) : NegotiationResult :=
  { success := false, scheduledSlot := none, alternativesConsidered := [],
    failureReason := some reason, consensusScore := 0 }

/-- `NegotiatorAgent.negotiate_meeting`, after the email-parsing front end
(out of the specified core) has produced the target date, the duration and
the optional requested time.  The second component of the result is
instrumentation recording whether the alternatives search — the Slot
Generator / Consensus Aggregator / Scoring Engine phase — was invoked.
When a requested time exists and `_evaluate_specific_time` succeeds, the
success response is built from it with an empty alternatives list and the
search never runs; otherwise `_find_alternative_slots` runs and an empty
result yields the failure response (`_negotiate_best_slot` returns a value
exactly when the alternatives list is non-empty, so the source's second
failure branch, "Could not find acceptable compromise", is unreachable). -/
def negotiate_meeting (oracle : Option String) (ps : List Participant)
    (dateBase durationMins : Int) (requestedTime : Option (TS × TS)) :
    NegotiationResult × Bool :=
  let searchAlternatives : Unit → NegotiationResult × Bool := fun _ =>
    let alternativeSlots := find_alternative_slots ps dateBase durationMins
    match negotiate_best_slot oracle ps alternativeSlots with
    | none => (create_failure_response noSlotsReason, true)
    | some best =>
      (create_success_response best.slot.startTime best.slot.endTime
        best.consensusScore alternativeSlots, true)
  match requestedTime with
  | some (startT, endT) =>
    let initialResult := evaluate_specific_time ps startT endT
    if initialResult.success then
      (create_success_response startT endT initialResult.consensusScore [], false)
    else searchAlternatives ()
  | none => searchAlternatives ()

/-- The consensus aggregate as the claim/spec words it (spec §4.4): the
arithmetic mean over participants of DECISION-WEIGHTED preference scores —
REJECT-equivalent 0, CONDITIONAL_ACCEPT score × 0.7, ACCEPT full score.
Written from the claim, for comparison with `calculate_consensus_score`. -/
def claim_consensus_score (ps : List Participant) (startT endT : TS) : ℚ :=
  let weighted := ps.map fun p =>
    let ev := evaluate_proposal p startT endT
    match ev.decision with
    | .REJECT => 0
    | .CONDITIONAL_ACCEPT => ev.preferenceScore * (7/10)
    | .ACCEPT => ev.preferenceScore
  if weighted.isEmpty then 0 else weighted.sum / (weighted.length : ℚ)

/-- The timezone tier as the claim words it: [9,17]→1.0, [8,18)→0.8,
[7,19)→0.6, else 0.2 (half-open upper bounds on the second and third band).
Written from the claim, for comparison with `tz_tier`. -/
def claim_tz_tier (hour : Int) : ℚ :=
  if 9 ≤ hour ∧ hour ≤ 17 then 1
  else if 8 ≤ hour ∧ hour < 18 then 4/5
  else if 7 ≤ hour ∧ hour < 19 then 3/5
  else 1/5

/-- Mean of the claim's tiers over participants (the claim's
timezone-fairness), for comparison with `calculate_timezone_fairness`. -/
def claim_timezone_fairness (ps : List Participant) (startT : TS) : ℚ :=
  let scores := ps.map fun p =>
    claim_tz_tier (localHourAt startT.instant p.preferences.timezoneOffset)
  if scores.isEmpty then 1/2 else scores.sum / (scores.length : ℚ)

/-- The preference score as the claim words it for C7: identical to the
source except that the lunch penalty fires when the SLOT — the interval from
the start lasting `durationMins` — overlaps 12:00–14:00 wall clock, rather
than when the start hour lies in [12, 14).  Written from the claim. -/
def claim_preference_score (p : Participant) (startT : TS)
    (durationMins : Int) : ℚ :=
  let hour := startT.hour
  let prefs := p.preferences.preferredTimes
  let bonus : ℚ :=
    if morningStr ∈ prefs ∧ 9 ≤ hour ∧ hour < 12 then 3/10
    else if afternoonStr ∈ prefs ∧ 13 ≤ hour ∧ hour < 17 then 3/10
    else if eveningStr ∈ prefs ∧ 17 ≤ hour ∧ hour < 20 then 1/5
    else 0
  let penalty : ℚ :=
    if p.preferences.avoidLunch ∧ localMinuteOfDay startT < 840 ∧
        720 < localMinuteOfDay startT + durationMins then 2/5
    else 0
  max 0 (min 1 ((1/2 + bonus - penalty) * (7/10 + 3/5 * p.preferences.seniorityWeight)))

/-- The preference score as the AMENDED claim words it: the same additive
formula, with the lunch penalty keyed on the start hour being in [12, 14),
as the source computes it. -/
def amended_preference_score (p : Participant) (startT : TS) : ℚ :=
  let hour := startT.hour
  let prefs := p.preferences.preferredTimes
  let bonus : ℚ :=
    if morningStr ∈ prefs ∧ 9 ≤ hour ∧ hour < 12 then 3/10
    else if afternoonStr ∈ prefs ∧ 13 ≤ hour ∧ hour < 17 then 3/10
    else if eveningStr ∈ prefs ∧ 17 ≤ hour ∧ hour < 20 then 1/5
    else 0
  let penalty : ℚ :=
    if p.preferences.avoidLunch ∧ 12 ≤ hour ∧ hour < 14 then 2/5 else 0
  max 0 (min 1 ((1/2 + bonus - penalty) * (7/10 + 3/5 * p.preferences.seniorityWeight)))

/- Concrete fixtures used by counterexamples and witnesses. -/

/-- Default-like preferences: no preferred periods, 15-minute buffer, no
lunch avoidance, seniority weight 1/2 (scale factor exactly 1), UTC. -/
def basePrefs : Preferences :=
  { preferredTimes := [], bufferMinutes := 15, avoidLunch := false,
    seniorityWeight := 1/2, timezoneOffset := 0 }

def plainParticipant : Participant :=
  { email := "alice", calendar := [], preferences := basePrefs }

def t600 : TS := ⟨600, 0⟩

def t630 : TS := ⟨630, 0⟩

def t690 : TS := ⟨690, 0⟩

def t720 : TS := ⟨720, 0⟩

def t750 : TS := ⟨750, 0⟩

def t1080 : TS := ⟨1080, 0⟩

def slot600 : AvailableSlot :=
  { startTime := t600, endTime := t630, preferenceScore := 1/2 }

/-- Empty calendar, avoids lunch, seniority 1/2 (scale exactly 1): a
participant who REJECTs a 12:00 proposal on preference alone. -/
def lunchAvoider : Participant :=
  { email := "bob", calendar := [],
    preferences := { preferredTimes := [], bufferMinutes := 15, avoidLunch := true,
                     seniorityWeight := 1/2, timezoneOffset := 0 } }

/-- Calendar blocking 09:00–12:00 and 12:30–18:00 with a zero buffer: the only
free 30-minute business-hour slot starts at 12:00. -/
def lunchOnlyCalendar : List CalendarEvent :=
  [ { startTime := ⟨540, 0⟩, endTime := ⟨720, 0⟩ },
    { startTime := ⟨750, 0⟩, endTime := ⟨1080, 0⟩ } ]

def lunchParticipant : Participant :=
  { email := "carol", calendar := lunchOnlyCalendar,
    preferences := { preferredTimes := [], bufferMinutes := 0, avoidLunch := true,
                     seniorityWeight := 1/2, timezoneOffset := 0 } }

/-- Calendar blocking 09:30–13:00 and 13:30–18:00 with a zero buffer: exactly
the 30-minute slots starting 09:00 and 13:00 are free. -/
def splitDayCalendar : List CalendarEvent :=
  [ { startTime := ⟨570, 0⟩, endTime := ⟨780, 0⟩ },
    { startTime := ⟨810, 0⟩, endTime := ⟨1080, 0⟩ } ]

def afternoonFan : Participant :=
  { email := "pm", calendar := splitDayCalendar,
    preferences := { preferredTimes := [afternoonStr], bufferMinutes := 0,
                     avoidLunch := false, seniorityWeight := 1/2, timezoneOffset := 0 } }

def morningFan : Participant :=
  { email := "am", calendar := splitDayCalendar,
    preferences := { preferredTimes := [morningStr], bufferMinutes := 0,
                     avoidLunch := false, seniorityWeight := 1/2, timezoneOffset := 0 } }

/-- A participant whose calendar blocks the whole day. -/
def busyAll : Participant :=
  { email := "dave",
    calendar := [ { startTime := ⟨0, 0⟩, endTime := ⟨1440, 0⟩ } ],
    preferences := basePrefs }

def respFive : String := "5"

def mkAlt (n : Int) : ScoredSlot :=
  { startTime := ⟨n, 0⟩, endTime := ⟨n + 30, 0⟩, consensusScore := 0,
    timezoneFairness := 0, overallScore := 0 }

def altsSix : List ScoredSlot :=
  [mkAlt 0, mkAlt 1, mkAlt 2, mkAlt 3, mkAlt 4, mkAlt 5]

def evA : CalendarEvent := { startTime := ⟨560, 0⟩, endTime := ⟨590, 0⟩ }

def evB : CalendarEvent := { startTime := ⟨900, 0⟩, endTime := ⟨960, 0⟩ }

/- General lemmas about the sort, the key set and the aggregates. -/

section SortLemmas

variable {α : Type} (key : α → ℚ)

theorem mem_insDesc {x a : α} : ∀ {l : List α},
    a ∈ insDesc key x l ↔ a = x ∨ a ∈ l
  | [] => by simp [insDesc]
  | y :: ys => by
    by_cases h : key y ≤ key x
    · simp [insDesc, h]
    · simp only [insDesc, if_neg h, List.mem_cons, mem_insDesc (l := ys)]
      tauto

theorem mem_sortDesc {a : α} : ∀ {l : List α}, a ∈ sortDesc key l ↔ a ∈ l
  | [] => by simp [sortDesc]
  | x :: xs => by
    simp [sortDesc, mem_insDesc, mem_sortDesc (l := xs)]

theorem pairwise_insDesc {x : α} : ∀ {l : List α},
    l.Pairwise (fun u v => key v ≤ key u) →
    (insDesc key x l).Pairwise (fun u v => key v ≤ key u)
  | [], _ => by simp [insDesc]
  | y :: ys, h => by
    rcases List.pairwise_cons.1 h with ⟨hy, hys⟩
    by_cases hxy : key y ≤ key x
    · rw [insDesc, if_pos hxy]
      refine List.pairwise_cons.2 ⟨?_, h⟩
      intro b hb
      rcases List.mem_cons.1 hb with rfl | hb
      · exact hxy
      · exact le_trans (hy b hb) hxy
    · rw [insDesc, if_neg hxy]
      refine List.pairwise_cons.2 ⟨?_, pairwise_insDesc hys⟩
      intro b hb
      rcases (mem_insDesc key).1 hb with rfl | hb
      · exact le_of_lt (lt_of_not_le hxy)
      · exact hy b hb

theorem pairwise_sortDesc : ∀ (l : List α),
    (sortDesc key l).Pairwise (fun u v => key v ≤ key u)
  | [] => by simp [sortDesc]
  | x :: xs => pairwise_insDesc key (pairwise_sortDesc xs)

end SortLemmas

theorem mem_foldl_dedup (k : TS × TS) :
    ∀ (l acc : List (TS × TS)),
      k ∈ l.foldl (fun acc j => if j ∈ acc then acc else acc ++ [j]) acc ↔
        k ∈ acc ∨ k ∈ l
  | [], acc => by simp
  | x :: xs, acc => by
    rw [List.foldl_cons, mem_foldl_dedup k xs]
    by_cases hx : x ∈ acc
    · simp only [if_pos hx, List.mem_cons]
      constructor
      · rintro (h | h)
        · exact Or.inl h
        · exact Or.inr (Or.inr h)
      · rintro (h | rfl | h)
        · exact Or.inl h
        · exact Or.inl hx
        · exact Or.inr h
    · simp only [if_neg hx, List.mem_append, List.mem_singleton, List.mem_cons]
      tauto

theorem mem_dedupKeys {k : TS × TS} {l : List (TS × TS)} :
    k ∈ dedupKeys l ↔ k ∈ l := by
  unfold dedupKeys
  rw [mem_foldl_dedup]
  simp

/-- Membership characterization of the consensus intersection: for a
non-empty map, a key is in the result exactly when every entry's list holds a
slot with that exact start and end; for the empty map the result is empty. -/
theorem mem_find_common_time_slots {k : TS × TS}
    {m : List (String × List AvailableSlot)} :
    k ∈ find_common_time_slots m ↔
      m ≠ [] ∧ ∀ entry ∈ m, ∃ slot ∈ entry.2,
        slot.startTime = k.1 ∧ slot.endTime = k.2 := by
  rcases m with _ | ⟨e, es⟩
  · simp [find_common_time_slots]
  · rw [find_common_time_slots]
    simp only [List.isEmpty_cons, if_false, Bool.false_eq_true]
    constructor
    · intro hk
      rcases List.mem_filter.1 hk with ⟨-, hall⟩
      refine ⟨by simp, ?_⟩
      intro entry hentry
      have hent := List.all_eq_true.1 hall entry hentry
      rcases List.any_eq_true.1 hent with ⟨slot, hslot, hb⟩
      rw [Bool.and_eq_true, beq_iff_eq, beq_iff_eq] at hb
      exact ⟨slot, hslot, hb.1, hb.2⟩
    · rintro ⟨-, hall⟩
      apply List.mem_filter.2
      constructor
      · apply mem_dedupKeys.2
        rcases hall e (by simp) with ⟨slot, hslot, h1, h2⟩
        apply List.mem_flatMap.2
        refine ⟨e, by simp, List.mem_map.2 ⟨slot, hslot, ?_⟩⟩
        rw [h1, h2]
      · apply List.all_eq_true.2
        intro entry hentry
        rcases hall entry hentry with ⟨slot, hslot, h1, h2⟩
        apply List.any_eq_true.2
        refine ⟨slot, hslot, ?_⟩
        rw [Bool.and_eq_true, beq_iff_eq, beq_iff_eq]
        exact ⟨h1, h2⟩

theorem find_common_of_empty_entry {m : List (String × List AvailableSlot)}
    {e : String × List AvailableSlot} (he : e ∈ m) (h2 : e.2 = []) :
    find_common_time_slots m = [] := by
  rw [List.eq_nil_iff_forall_not_mem]
  intro k hk
  rcases mem_find_common_time_slots.1 hk with ⟨-, hall⟩
  rcases hall e he with ⟨slot, hslot, -⟩
  rw [h2] at hslot
  exact absurd hslot (List.not_mem_nil slot)

theorem consensus_foldl (startT endT : TS) :
    ∀ (ps : List Participant) (q : ℚ) (n : Nat),
      ps.foldl
        (fun acc p =>
          (acc.1 + (evaluate_proposal p startT endT).preferenceScore, acc.2 + 1))
        (q, n)
      = (q + (ps.map fun p => (evaluate_proposal p startT endT).preferenceScore).sum,
         n + ps.length)
  | [], q, n => by simp
  | p :: rest, q, n => by
    rw [List.foldl_cons, consensus_foldl startT endT rest]
    rw [Prod.ext_iff]
    constructor
    · simp only [List.map_cons, List.sum_cons]
      ring
    · simp only [List.length_cons]
      omega

theorem calculate_consensus_score_eq (ps : List Participant) (startT endT : TS)
    (h : ps ≠ []) :
    calculate_consensus_score ps startT endT
      = (ps.map fun p => (evaluate_proposal p startT endT).preferenceScore).sum /
          (ps.length : ℚ) := by
  unfold calculate_consensus_score
  rw [consensus_foldl]
  have hl : 0 < ps.length := List.length_pos.2 h
  simp [hl]

theorem mem_find_alternative_slots {x : ScoredSlot} {ps : List Participant}
    {dateBase durationMins : Int}
    (hx : x ∈ find_alternative_slots ps dateBase durationMins) :
    x.consensusScore = calculate_consensus_score ps x.startTime x.endTime ∧
    x.timezoneFairness = calculate_timezone_fairness ps x.startTime ∧
    x.overallScore = x.consensusScore * (7/10) + x.timezoneFairness * (3/10) := by
  unfold find_alternative_slots at hx
  have hx' := List.take_subset 10 _ hx
  rw [mem_sortDesc] at hx'
  rcases List.mem_map.1 hx' with ⟨k, -, rfl⟩
  exact ⟨rfl, rfl, rfl⟩

theorem calculate_preference_score_bounds (p : Participant) (t : TS) :
    0 ≤ calculate_preference_score p t ∧ calculate_preference_score p t ≤ 1 := by
  unfold calculate_preference_score
  exact ⟨le_max_left 0 _, max_le (by norm_num) (min_le_left 1 _)⟩

theorem calculate_preference_score_eq_amended (p : Participant) (t : TS) :
    calculate_preference_score p t = amended_preference_score p t := by
  unfold calculate_preference_score amended_preference_score
  dsimp only
  split_ifs <;> ring_nf

/- Concrete evaluations used by counterexamples and witnesses. -/

theorem plain_eval_t600 :
    evaluate_proposal plainParticipant t600 t630 =
      { decision := .CONDITIONAL_ACCEPT, reason := preferenceBasedReason,
        preferenceScore := 1/2 } := by
  norm_num [evaluate_proposal, Participant.hasConflict, has_conflict,
    calculate_preference_score, TS.hour, TS.localMinutes, plainParticipant,
    basePrefs, t600, t630, morningStr, afternoonStr, eveningStr,
    max_def, min_def]

theorem lunch_eval_t720 :
    evaluate_proposal lunchParticipant t720 t750 =
      { decision := .REJECT, reason := preferenceBasedReason,
        preferenceScore := 1/10 } := by
  norm_num [evaluate_proposal, Participant.hasConflict, has_conflict,
    calculate_preference_score, TS.hour, TS.localMinutes, lunchParticipant,
    lunchOnlyCalendar, t720, t750, morningStr, afternoonStr, eveningStr,
    max_def, min_def]

theorem lunchAvoider_eval_t720 :
    evaluate_proposal lunchAvoider t720 t750 =
      { decision := .REJECT, reason := preferenceBasedReason,
        preferenceScore := 1/10 } := by
  norm_num [evaluate_proposal, Participant.hasConflict, has_conflict,
    calculate_preference_score, TS.hour, TS.localMinutes, lunchAvoider,
    t720, t750, morningStr, afternoonStr, eveningStr, max_def, min_def]

theorem busyAll_no_slots : find_available_slots busyAll 0 30 = [] := by
  norm_num [find_available_slots, List.range_succ, List.filterMap_cons,
    Participant.hasConflict, has_conflict, busyAll, basePrefs, sortDesc]

theorem ms_ne_as : (morningStr = afternoonStr) = False := eq_false (by decide)

theorem es_ne_as : (eveningStr = afternoonStr) = False := eq_false (by decide)

theorem as_ne_ms : (afternoonStr = morningStr) = False := eq_false (by decide)

theorem es_ne_ms : (eveningStr = morningStr) = False := eq_false (by decide)

theorem afternoonFan_slots :
    find_available_slots afternoonFan 0 30 =
      [ { startTime := ⟨780, 0⟩, endTime := ⟨810, 0⟩, preferenceScore := 4/5 },
        { startTime := ⟨540, 0⟩, endTime := ⟨570, 0⟩, preferenceScore := 1/2 } ] := by
  norm_num [find_available_slots, List.range_succ, List.filterMap_cons,
    Participant.hasConflict, has_conflict, calculate_preference_score,
    TS.hour, TS.localMinutes, afternoonFan, splitDayCalendar, ms_ne_as,
    es_ne_as, sortDesc, insDesc, max_def, min_def]

theorem morningFan_slots :
    find_available_slots morningFan 0 30 =
      [ { startTime := ⟨540, 0⟩, endTime := ⟨570, 0⟩, preferenceScore := 4/5 },
        { startTime := ⟨780, 0⟩, endTime := ⟨810, 0⟩, preferenceScore := 1/2 } ] := by
  norm_num [find_available_slots, List.range_succ, List.filterMap_cons,
    Participant.hasConflict, has_conflict, calculate_preference_score,
    TS.hour, TS.localMinutes, morningFan, splitDayCalendar, as_ne_ms,
    es_ne_ms, sortDesc, insDesc, max_def, min_def]

theorem fan_common_slots :
    find_common_time_slots (collect_available_slots [afternoonFan, morningFan] 0 30)
      = [(⟨780, 0⟩, ⟨810, 0⟩), (⟨540, 0⟩, ⟨570, 0⟩)] := by
  simp only [collect_available_slots, List.map_cons, List.map_nil,
    afternoonFan_slots, morningFan_slots]
  decide

theorem fan_consensus_780 :
    calculate_consensus_score [afternoonFan, morningFan] ⟨780, 0⟩ ⟨810, 0⟩ = 13/20 := by
  norm_num [calculate_consensus_score, evaluate_proposal, Participant.hasConflict,
    has_conflict, calculate_preference_score, TS.hour, TS.localMinutes,
    afternoonFan, morningFan, splitDayCalendar, ms_ne_as, es_ne_as, as_ne_ms,
    es_ne_ms, max_def, min_def]

theorem fan_consensus_540 :
    calculate_consensus_score [afternoonFan, morningFan] ⟨540, 0⟩ ⟨570, 0⟩ = 13/20 := by
  norm_num [calculate_consensus_score, evaluate_proposal, Participant.hasConflict,
    has_conflict, calculate_preference_score, TS.hour, TS.localMinutes,
    afternoonFan, morningFan, splitDayCalendar, ms_ne_as, es_ne_as, as_ne_ms,
    es_ne_ms, max_def, min_def]

theorem fan_fairness_780 :
    calculate_timezone_fairness [afternoonFan, morningFan] ⟨780, 0⟩ = 1 := by
  norm_num [calculate_timezone_fairness, tz_tier, localHourAt, afternoonFan,
    morningFan]

theorem fan_fairness_540 :
    calculate_timezone_fairness [afternoonFan, morningFan] ⟨540, 0⟩ = 1 := by
  norm_num [calculate_timezone_fairness, tz_tier, localHourAt, afternoonFan,
    morningFan]

theorem fan_alternatives :
    find_alternative_slots [afternoonFan, morningFan] 0 30 =
      [ { startTime := ⟨780, 0⟩, endTime := ⟨810, 0⟩, consensusScore := 13/20,
          timezoneFairness := 1, overallScore := 151/200 },
        { startTime := ⟨540, 0⟩, endTime := ⟨570, 0⟩, consensusScore := 13/20,
          timezoneFairness := 1, overallScore := 151/200 } ] := by
  rw [find_alternative_slots]
  dsimp only
  rw [fan_common_slots]
  simp only [List.map_cons, List.map_nil]
  rw [fan_consensus_780, fan_consensus_540, fan_fairness_780, fan_fairness_540]
  norm_num [sortDesc, insDesc]

/- The claims. -/

/-- C1: the claim quantifies over EVERY map of per-participant slot lists,
but at the empty map the stated equivalence fails: a slot "present in every
participant's list" is vacuously true for the empty map, while the source
returns the empty list, so the right-to-left direction is false. -/
theorem C1_counterexample :
    ¬ (((⟨600, 0⟩, ⟨630, 0⟩) : TS × TS) ∈ find_common_time_slots [] ↔
        ∀ entry ∈ ([] : List (String × List AvailableSlot)),
          ∃ slot ∈ entry.2,
            slot.startTime = (⟨600, 0⟩ : TS) ∧ slot.endTime = (⟨630, 0⟩ : TS)) := by
  intro h
  have h2 : ((⟨600, 0⟩, ⟨630, 0⟩) : TS × TS) ∈
      find_common_time_slots [] := by
    apply h.2
    intro entry hentry
    exact absurd hentry (List.not_mem_nil entry)
  have h3 : find_common_time_slots ([] : List (String × List AvailableSlot)) = [] := rfl
  rw [h3] at h2
  exact absurd h2 (List.not_mem_nil _)

/-- C1 (amended): for every NON-EMPTY map of per-participant available-slot
lists, a slot is in the intersection iff a slot with exactly equal start and
end times is present in every participant's list; the result is always a
list (empty when no common slot exists), and for the empty map it is empty. -/
theorem C1_intersection_membership (m : List (String × List AvailableSlot))
    (k : TS × TS) (hm : m ≠ []) :
    k ∈ find_common_time_slots m ↔
      ∀ entry ∈ m, ∃ slot ∈ entry.2,
        slot.startTime = k.1 ∧ slot.endTime = k.2 := by
  rw [mem_find_common_time_slots]
  exact and_iff_right hm

/-- Witness for C1 at a concrete one-participant map. -/
theorem C1_intersection_membership_witness :
    ((t600, t630) ∈ find_common_time_slots [(plainParticipant.email, [slot600])] ↔
      ∀ entry ∈ [(plainParticipant.email, [slot600])],
        ∃ slot ∈ entry.2,
          slot.startTime = ((t600, t630) : TS × TS).1 ∧
          slot.endTime = ((t600, t630) : TS × TS).2) :=
  C1_intersection_membership [(plainParticipant.email, [slot600])] (t600, t630)
    (by simp)

/-- C3: falsified — `_calculate_consensus_score` sums the RAW returned
preference scores with no decision weighting: one free participant whose
evaluation is CONDITIONAL_ACCEPT with score 1/2 yields consensus 1/2,
while the claim's 0.7-weighted mean would be 7/20. -/
theorem C3_counterexample :
    calculate_consensus_score [plainParticipant] t600 t630 = 1/2 ∧
    claim_consensus_score [plainParticipant] t600 t630 = 7/20 ∧
    (evaluate_proposal plainParticipant t600 t630).decision
      = Decision.CONDITIONAL_ACCEPT ∧
    calculate_consensus_score [plainParticipant] t600 t630 ≠
      claim_consensus_score [plainParticipant] t600 t630 := by
  have h1 : calculate_consensus_score [plainParticipant] t600 t630 = 1/2 := by
    norm_num [calculate_consensus_score, plain_eval_t600, List.foldl_cons,
      List.foldl_nil]
  have h2 : claim_consensus_score [plainParticipant] t600 t630 = 7/20 := by
    norm_num [claim_consensus_score, plain_eval_t600]
  refine ⟨h1, h2, by rw [plain_eval_t600], ?_⟩
  rw [h1, h2]
  norm_num

/-- C3 (amended): for a non-empty participant list the consensus score is the
arithmetic mean of the RAW preference scores of the evaluations — a
calendar-conflict REJECT contributes 0 (its evaluation carries score 0), and
ACCEPT, CONDITIONAL_ACCEPT and preference-based REJECT all contribute the raw
preference score, with no 0.7 weighting of conditional acceptances. -/
theorem C3_consensus_mean (ps : List Participant) (startT endT : TS)
    (h : ps ≠ []) :
    calculate_consensus_score ps startT endT
      = (ps.map fun p => (evaluate_proposal p startT endT).preferenceScore).sum /
          (ps.length : ℚ) ∧
    ∀ p : Participant, p.hasConflict startT endT = true →
      (evaluate_proposal p startT endT).preferenceScore = 0 := by
  refine ⟨calculate_consensus_score_eq ps startT endT h, ?_⟩
  intro p hp
  rw [evaluate_proposal, if_pos hp]

/-- Witness for C3 (amended) at a concrete one-participant input. -/
theorem C3_consensus_mean_witness :
    calculate_consensus_score [plainParticipant] t600 t630
      = (([plainParticipant] : List Participant).map
          (fun p => (evaluate_proposal p t600 t630).preferenceScore)).sum /
        ((([plainParticipant] : List Participant).length) : ℚ) :=
  (C3_consensus_mean [plainParticipant] t600 t630 (by simp)).1

/-- C8: confirmed — the conflict check expands the candidate by the buffer on
both ends and reports true iff some event overlaps the expanded candidate
under half-open-interval semantics, and its value is invariant under any
permutation of the event list. -/
theorem C8_conflict_check (startT endT : TS) (events : List CalendarEvent)
    (buffer : Int) (hbuf : 0 ≤ buffer) :
    (has_conflict startT endT events buffer = true ↔
      ∃ ev ∈ events,
        ¬(endT.instant + buffer ≤ ev.startTime.instant ∨
          startT.instant - buffer ≥ ev.endTime.instant)) ∧
    ∀ events' : List CalendarEvent, events.Perm events' →
      has_conflict startT endT events buffer
        = has_conflict startT endT events' buffer := by
  have hmem : ∀ l : List CalendarEvent,
      has_conflict startT endT l buffer = true ↔
        ∃ ev ∈ l, ¬(endT.instant + buffer ≤ ev.startTime.instant ∨
          startT.instant - buffer ≥ ev.endTime.instant) := by
    intro l
    simp [has_conflict, not_or]
  refine ⟨hmem events, ?_⟩
  intro events' hperm
  have h2 : (has_conflict startT endT events buffer = true)
      ↔ (has_conflict startT endT events' buffer = true) := by
    rw [hmem events, hmem events']
    constructor
    · rintro ⟨ev, he, hp⟩
      exact ⟨ev, hperm.mem_iff.1 he, hp⟩
    · rintro ⟨ev, he, hp⟩
      exact ⟨ev, hperm.mem_iff.2 he, hp⟩
  cases hb : has_conflict startT endT events buffer with
  | true => exact (h2.1 hb).symm
  | false =>
    cases hb' : has_conflict startT endT events' buffer with
    | true => exact absurd (h2.2 hb') (by rw [hb]; exact Bool.false_ne_true)
    | false => rfl

/-- Witness for C8: a two-event calendar and its transposition. -/
theorem C8_conflict_check_witness :
    has_conflict t600 t630 [evA, evB] 15
      = has_conflict t600 t630 [evB, evA] 15 :=
  (C8_conflict_check t600 t630 [evA, evB] 15 (by norm_num)).2 [evB, evA]
    (List.Perm.swap evB evA [])

/-- C10: confirmed — with no calendar conflict the decision is ACCEPT iff the
preference score is ≥ 0.7, CONDITIONAL_ACCEPT iff it is in [0.4, 0.7), and
REJECT iff it is < 0.4; and in the requested-time evaluation any REJECT
(including a preference-based one from a participant with an empty calendar)
makes the evaluation unsuccessful. -/
theorem C10_decision_thresholds :
    (∀ (p : Participant) (startT endT : TS),
      p.hasConflict startT endT = false →
      (((evaluate_proposal p startT endT).decision = Decision.ACCEPT ↔
          7/10 ≤ calculate_preference_score p startT) ∧
       ((evaluate_proposal p startT endT).decision = Decision.CONDITIONAL_ACCEPT ↔
          2/5 ≤ calculate_preference_score p startT ∧
            calculate_preference_score p startT < 7/10) ∧
       ((evaluate_proposal p startT endT).decision = Decision.REJECT ↔
          calculate_preference_score p startT < 2/5))) ∧
    (∀ (ps : List Participant) (p : Participant) (startT endT : TS),
      p ∈ ps → p.calendar = [] → calculate_preference_score p startT < 2/5 →
      (evaluate_specific_time ps startT endT).success = false) := by
  constructor
  · intro p startT endT hnc
    rw [evaluate_proposal]
    rw [hnc]
    simp only [Bool.false_eq_true, if_false]
    set s := calculate_preference_score p startT with hs
    by_cases h1 : 7/10 ≤ s
    · rw [if_pos h1]
      have h1' : ¬ s < 7/10 := not_lt.2 h1
      have h1'' : ¬ s < 2/5 := by
        intro hcon
        exact h1' (lt_trans hcon (by norm_num))
      simp [h1, h1', h1'']
    · rw [if_neg h1]
      by_cases h2 : 2/5 ≤ s
      · rw [if_pos h2]
        have h3 : s < 7/10 := not_le.1 h1
        have h2' : ¬ s < 2/5 := not_lt.2 h2
        simp [h1, h2, h3, h2']
      · rw [if_neg h2]
        have h3 : s < 2/5 := not_le.1 h2
        simp [h1, h2, h3]
  · intro ps p startT endT hmem hcal hlow
    have hpc : p.hasConflict startT endT = false := by
      simp [Participant.hasConflict, has_conflict, hcal]
    have hdec : (evaluate_proposal p startT endT).decision = Decision.REJECT := by
      rw [evaluate_proposal]
      rw [hpc]
      simp only [Bool.false_eq_true, if_false]
      have h1 : ¬ 7/10 ≤ calculate_preference_score p startT := by
        intro hcon
        have : (2 : ℚ)/5 ≤ calculate_preference_score p startT :=
          le_trans (by norm_num) hcon
        exact absurd hlow (not_lt.2 this)
      have h2 : ¬ 2/5 ≤ calculate_preference_score p startT := not_le.2 hlow
      rw [if_neg h1, if_neg h2]
    have hpf : p ∈ ps.filter fun q =>
        (evaluate_proposal q startT endT).decision == Decision.REJECT := by
      apply List.mem_filter.2
      refine ⟨hmem, ?_⟩
      rw [hdec]
      rfl
    have hne : (ps.filter fun q =>
        (evaluate_proposal q startT endT).decision == Decision.REJECT) ≠ [] := by
      intro hnil
      rw [hnil] at hpf
      exact absurd hpf (List.not_mem_nil p)
    have hmape : (ps.filter fun q =>
        (evaluate_proposal q startT endT).decision == Decision.REJECT).map
          (fun r => r.email) ≠ [] := by
      intro hnil
      exact hne (List.map_eq_nil_iff.1 hnil)
    rw [evaluate_specific_time]
    dsimp only
    rw [Bool.eq_false_iff]
    intro htrue
    rw [List.isEmpty_iff] at htrue
    exact hmape htrue

/-- Witness for C10: a free-calendar lunch avoider blocks a 12:00 request. -/
theorem C10_decision_thresholds_witness :
    (evaluate_specific_time [lunchAvoider] t720 t750).success = false :=
  C10_decision_thresholds.2 [lunchAvoider] lunchAvoider t720 t750
    (List.mem_singleton.2 rfl) rfl
    (by norm_num [calculate_preference_score, lunchAvoider, TS.hour,
      TS.localMinutes, t720, max_def, min_def])

/-- C2: falsified — evaluation of the requested time is NOT just the conflict
check: `lunchParticipant` has no calendar conflict with the 12:00 requested
time, yet its preference-based REJECT (score 1/10 < 0.4) fails the fast path,
and the negotiation goes on to invoke the alternatives search (Slot
Generator + Consensus Aggregator), contradicting both the immediate-success
and the "without invoking" parts of the claim. -/
theorem C2_counterexample :
    Participant.hasConflict lunchParticipant t720 t750 = false ∧
    (negotiate_meeting none [lunchParticipant] 0 30 (some (t720, t750))).2 = true := by
  refine ⟨by decide, ?_⟩
  have hfail : (evaluate_specific_time [lunchParticipant] t720 t750).success
      = false := by
    simp [evaluate_specific_time, lunch_eval_t720, List.filter_cons]
  rw [negotiate_meeting]
  dsimp only
  rw [hfail]
  simp only [Bool.false_eq_true, if_false]
  rcases h : negotiate_best_slot none [lunchParticipant]
      (find_alternative_slots [lunchParticipant] 0 30) with _ | best <;>
    simp [h]

/-- C2 (amended): if the request carries an explicit requested time and every
participant's evaluation of it returns a non-REJECT decision — which requires
both no calendar conflict AND a preference score ≥ 0.4 — the negotiation
terminates immediately with the success response built from the requested
time, an empty alternatives list, and the Slot Generator / Consensus
Aggregator phase never runs. -/
theorem C2_fast_path (oracle : Option String) (ps : List Participant)
    (dateBase durationMins : Int) (startT endT : TS)
    (h : ∀ p ∈ ps, (evaluate_proposal p startT endT).decision ≠ Decision.REJECT) :
    negotiate_meeting oracle ps dateBase durationMins (some (startT, endT))
      = (create_success_response startT endT
          (evaluate_specific_time ps startT endT).consensusScore [], false) ∧
    (negotiate_meeting oracle ps dateBase durationMins
      (some (startT, endT))).1.success = true ∧
    (negotiate_meeting oracle ps dateBase durationMins
      (some (startT, endT))).1.alternativesConsidered = [] := by
  have hsuc : (evaluate_specific_time ps startT endT).success = true := by
    rw [evaluate_specific_time]
    dsimp only
    rw [List.isEmpty_iff]
    rw [List.map_eq_nil_iff]
    rw [List.filter_eq_nil_iff]
    intro p hp
    have := h p hp
    simpa using this
  have hmain : negotiate_meeting oracle ps dateBase durationMins
      (some (startT, endT))
      = (create_success_response startT endT
          (evaluate_specific_time ps startT endT).consensusScore [], false) := by
    rw [negotiate_meeting]
    dsimp only
    rw [hsuc]
    simp only [if_true]
  refine ⟨hmain, ?_, ?_⟩
  · rw [hmain]
    rfl
  · rw [hmain]
    rfl

/-- Witness for C2 (amended): one free participant conditionally accepts a
10:00 request, so the fast path succeeds. -/
theorem C2_fast_path_witness :
    negotiate_meeting none [plainParticipant] 0 30 (some (t600, t630))
      = (create_success_response t600 t630
          (evaluate_specific_time [plainParticipant] t600 t630).consensusScore [],
         false) :=
  (C2_fast_path none [plainParticipant] 0 30 t600 t630 (by
    intro p hp
    rw [List.mem_singleton] at hp
    subst hp
    rw [plain_eval_t600]
    intro hcon
    exact Decision.noConfusion hcon)).1

/-- C4: falsified on the clamp bound — with 6 scored alternatives the oracle
reply "5" is clamped to `len(alternative_slots) - 1 = 5`, not to K−1 = 4:
the sixth slot (outside the top 5) is selected. -/
theorem C4_counterexample :
    ((negotiate_best_slot (some respFive) [] altsSix).map fun b => b.slot)
      = some (mkAlt 5) ∧
    mkAlt 5 ∉ altsSix.take 5 := by
  constructor
  · decide
  · decide

/-- C4 (amended): the parsed selection index is clamped to [0, N−1] where N
is the length of the FULL alternatives list handed to selection (up to 10
after top-10 truncation; K = 5 governs only the prompt summary); on oracle
failure index 0 (highest overall score) is selected; and whenever at least
one consensus-feasible slot exists the negotiation result's success is true
for every oracle behaviour, so disabling or erroring the oracle never turns
success from true to false. -/
theorem C4_selection_clamp_and_fallback :
    (∀ (resp : String) (n : Int), 1 ≤ n →
      0 ≤ parse_llm_selection resp n ∧ parse_llm_selection resp n ≤ n - 1) ∧
    (∀ (ps : List Participant) (first : ScoredSlot) (rest : List ScoredSlot),
      ((negotiate_best_slot none ps (first :: rest)).map fun b => b.slot)
        = some first) ∧
    (∀ (oracle : Option String) (ps : List Participant)
        (dateBase durationMins : Int) (rt : Option (TS × TS)),
      find_alternative_slots ps dateBase durationMins ≠ [] →
      (negotiate_meeting oracle ps dateBase durationMins rt).1.success = true) := by
  refine ⟨?_, ?_, ?_⟩
  · intro resp n hn
    rw [parse_llm_selection]
    rcases h : (wordRuns resp.toList []).filter
        (fun r => !r.isEmpty && r.all Char.isDigit) with _ | ⟨r, rs⟩
    · rw [h]
      dsimp only
      constructor
      · exact le_refl 0
      · omega
    · rw [h]
      dsimp only
      constructor
      · apply le_min
        · exact Int.natCast_nonneg (digitValue r)
        · omega
      · exact min_le_right _ _
  · intro ps first rest
    rfl
  · intro oracle ps dateBase durationMins rt halts
    rcases halts' : find_alternative_slots ps dateBase durationMins with _ | ⟨f, r⟩
    · exact absurd halts' halts
    · rcases rt with _ | ⟨s, e⟩
      · rw [negotiate_meeting]
        dsimp only
        rw [halts']
        rfl
      · rw [negotiate_meeting]
        dsimp only
        by_cases hs : (evaluate_specific_time ps s e).success = true
        · rw [hs]
          simp only [if_true]
          rfl
        · rw [Bool.not_eq_true] at hs
          rw [hs]
          simp only [Bool.false_eq_true, if_false]
          rw [halts']
          rfl

/-- Witness for C4 (amended): the clamp at the reply "5" against 6 options. -/
theorem C4_selection_clamp_and_fallback_witness :
    0 ≤ parse_llm_selection respFive 6 ∧ parse_llm_selection respFive 6 ≤ 6 - 1 :=
  C4_selection_clamp_and_fallback.1 respFive 6 (by norm_num)

/-- C5: falsified on the tie-break — two slots tie at overall score 151/200
and the ranked list puts the 13:00 slot (instant 780) BEFORE the 09:00 slot
(instant 540): ties follow the stable sort's candidate-enumeration order,
not earliest start time. -/
theorem C5_counterexample :
    ((find_alternative_slots [afternoonFan, morningFan] 0 30).map
        fun x => x.overallScore) = [151/200, 151/200] ∧
    ((find_alternative_slots [afternoonFan, morningFan] 0 30).map
        fun x => x.startTime.instant) = [780, 540] ∧
    (540 : Int) < 780 := by
  rw [fan_alternatives]
  norm_num

/-- C5 (amended): the negotiation (oracle disabled) is a pure function of its
inputs — equal inputs give identical results — and the ranked alternatives
are ordered by overall score descending; ties, however, keep the stable
sort's enumeration order of the candidate set and are NOT re-broken by
earliest start time. -/
theorem C5_determinism_and_ordering (ps ps' : List Participant)
    (dateBase dateBase' durationMins durationMins' : Int)
    (rt rt' : Option (TS × TS)) (h1 : ps = ps') (h2 : dateBase = dateBase')
    (h3 : durationMins = durationMins') (h4 : rt = rt') :
    negotiate_meeting none ps dateBase durationMins rt
      = negotiate_meeting none ps' dateBase' durationMins' rt' ∧
    (find_alternative_slots ps dateBase durationMins).Pairwise
      (fun a b => b.overallScore ≤ a.overallScore) := by
  subst h1 h2 h3 h4
  refine ⟨rfl, ?_⟩
  rw [find_alternative_slots]
  exact (pairwise_sortDesc _ _).sublist (List.take_sublist _ _)

/-- Witness for C5 (amended) at concrete equal inputs. -/
theorem C5_determinism_and_ordering_witness :
    negotiate_meeting none [afternoonFan, morningFan] 0 30 none
      = negotiate_meeting none [afternoonFan, morningFan] 0 30 none :=
  (C5_determinism_and_ordering [afternoonFan, morningFan]
    [afternoonFan, morningFan] 0 0 30 30 none none rfl rfl rfl rfl).1

/-- C6: falsified at the band edges — at local hour 18 the source's inclusive
guard `8 <= hour <= 18` yields tier 0.8, while the claim's half-open [8,18)
band excludes 18 and yields 0.6. -/
theorem C6_counterexample :
    calculate_timezone_fairness [plainParticipant] t1080 = 4/5 ∧
    claim_timezone_fairness [plainParticipant] t1080 = 3/5 ∧
    calculate_timezone_fairness [plainParticipant] t1080 ≠
      claim_timezone_fairness [plainParticipant] t1080 := by
  have h1 : calculate_timezone_fairness [plainParticipant] t1080 = 4/5 := by
    norm_num [calculate_timezone_fairness, tz_tier, localHourAt,
      plainParticipant, basePrefs, t1080]
  have h2 : claim_timezone_fairness [plainParticipant] t1080 = 3/5 := by
    norm_num [claim_timezone_fairness, claim_tz_tier, localHourAt,
      plainParticipant, basePrefs, t1080]
  refine ⟨h1, h2, ?_⟩
  rw [h1, h2]
  norm_num

/-- C6 (amended): the timezone-fairness score is the mean over participants
of the tier of the slot start's participant-local hour, with INCLUSIVE upper
bounds on every band ([9,17]→1.0, else [8,18]→0.8, else [7,19]→0.6,
else 0.2); and every ranked slot's overall score is
0.7 × consensusScore + 0.3 × timezoneFairness, its recorded component scores
being exactly the consensus and fairness of its interval. -/
theorem C6_fairness_mean_and_overall (ps : List Participant) (startT : TS)
    (dateBase durationMins : Int) (hne : ps ≠ []) :
    calculate_timezone_fairness ps startT
      = (ps.map fun p =>
          tz_tier (localHourAt startT.instant p.preferences.timezoneOffset)).sum /
          (ps.length : ℚ) ∧
    (∀ hh : Int,
      (9 ≤ hh ∧ hh ≤ 17 → tz_tier hh = 1) ∧
      (¬(9 ≤ hh ∧ hh ≤ 17) → 8 ≤ hh ∧ hh ≤ 18 → tz_tier hh = 4/5) ∧
      (¬(9 ≤ hh ∧ hh ≤ 17) → ¬(8 ≤ hh ∧ hh ≤ 18) → 7 ≤ hh ∧ hh ≤ 19 →
        tz_tier hh = 3/5) ∧
      (¬(7 ≤ hh ∧ hh ≤ 19) → tz_tier hh = 1/5)) ∧
    ∀ x ∈ find_alternative_slots ps dateBase durationMins,
      x.timezoneFairness = calculate_timezone_fairness ps x.startTime ∧
      x.consensusScore = calculate_consensus_score ps x.startTime x.endTime ∧
      x.overallScore = x.consensusScore * (7/10) + x.timezoneFairness * (3/10) := by
  refine ⟨?_, ?_, ?_⟩
  · rw [calculate_timezone_fairness]
    rw [if_neg (by simp [List.isEmpty_iff, hne])]
    rw [List.length_map]
  · intro hh
    refine ⟨?_, ?_, ?_, ?_⟩ <;> intros <;> rw [tz_tier] <;> split_ifs <;>
      first | rfl | omega
  · intro x hx
    have h := mem_find_alternative_slots hx
    exact ⟨h.2.1, h.1, h.2.2⟩

/-- Witness for C6 (amended) at one participant and a morning slot. -/
theorem C6_fairness_mean_and_overall_witness :
    calculate_timezone_fairness [plainParticipant] t600
      = (([plainParticipant] : List Participant).map
          (fun p =>
            tz_tier (localHourAt t600.instant p.preferences.timezoneOffset))).sum /
        ((([plainParticipant] : List Participant).length) : ℚ) :=
  (C6_fairness_mean_and_overall [plainParticipant] t600 0 30 (by simp)).1

/-- The generator offers `lunchAvoider` the 11:30–12:30 slot with the raw
score 1/2: the start hour is 11, so the source applies no lunch penalty even
though the slot overlaps 12:00–14:00. -/
theorem lunchAvoider_slot690_mem :
    ({ startTime := t690, endTime := t750, preferenceScore := 1/2 } : AvailableSlot)
      ∈ find_available_slots lunchAvoider 0 60 := by
  rw [find_available_slots]
  rw [mem_sortDesc]
  apply List.mem_filterMap.2
  refine ⟨10, by decide, ?_⟩
  norm_num [Participant.hasConflict, has_conflict, calculate_preference_score,
    TS.hour, TS.localMinutes, lunchAvoider, t690, t750, max_def, min_def]

/-- C7: falsified on the lunch rule — the generated 11:30 slot of a
lunch-avoiding participant keeps score 1/2 (its start hour 11 is outside
[12,14)), while the claim's overlap-based penalty would give 1/10, because a
60-minute slot starting 11:30 overlaps 12:00–14:00. -/
theorem C7_counterexample :
    (({ startTime := t690, endTime := t750, preferenceScore := 1/2 } : AvailableSlot)
      ∈ find_available_slots lunchAvoider 0 60) ∧
    claim_preference_score lunchAvoider t690 60 = 1/10 ∧
    ((1 : ℚ)/2) ≠ 1/10 := by
  refine ⟨lunchAvoider_slot690_mem, ?_, by norm_num⟩
  norm_num [claim_preference_score, localMinuteOfDay, TS.hour, TS.localMinutes,
    lunchAvoider, t690, max_def, min_def]

/-- C7 (amended): every slot produced by the generator carries the additive
preference score — base 0.5, one period bonus, lunch penalty 0.4 exactly when
`avoidLunch` is set and the START HOUR lies in [12,14) (irrespective of
whether the slot's extent overlaps lunch), scaled by
(0.7 + 0.6 × seniorityWeight) and clamped to [0,1]. -/
theorem C7_generated_scores (p : Participant) (dateBase durationMins : Int)
    (slot : AvailableSlot)
    (hmem : slot ∈ find_available_slots p dateBase durationMins) :
    slot.preferenceScore = amended_preference_score p slot.startTime ∧
    0 ≤ slot.preferenceScore ∧ slot.preferenceScore ≤ 1 := by
  rw [find_available_slots] at hmem
  rw [mem_sortDesc] at hmem
  rcases List.mem_filterMap.1 hmem with ⟨k, -, hk⟩
  dsimp only at hk
  split_ifs at hk
  rw [Option.some.injEq] at hk
  subst hk
  exact ⟨calculate_preference_score_eq_amended p _,
    (calculate_preference_score_bounds p _).1,
    (calculate_preference_score_bounds p _).2⟩

/-- Witness for C7 (amended) at the concrete generated 11:30 slot. -/
theorem C7_generated_scores_witness :
    ({ startTime := t690, endTime := t750, preferenceScore := 1/2 } : AvailableSlot).preferenceScore
      = amended_preference_score lunchAvoider
          ({ startTime := t690, endTime := t750,
             preferenceScore := 1/2 } : AvailableSlot).startTime ∧
    0 ≤ ({ startTime := t690, endTime := t750,
           preferenceScore := 1/2 } : AvailableSlot).preferenceScore ∧
    ({ startTime := t690, endTime := t750,
       preferenceScore := 1/2 } : AvailableSlot).preferenceScore ≤ 1 :=
  C7_generated_scores lunchAvoider 0 60 _ lunchAvoider_slot690_mem

/-- C9: confirmed — when the alternatives search runs (no requested time, or
a requested time whose evaluation failed) and some participant contributes an
empty available-slot list, the consensus intersection is empty (the
participant is never treated as unconstrained) and the negotiation returns
the failure response: success false, non-empty failure reason, empty
alternatives list. -/
theorem C9_empty_availability (oracle : Option String) (ps : List Participant)
    (dateBase durationMins : Int) (rt : Option (TS × TS)) (p : Participant)
    (hp : p ∈ ps) (hempty : find_available_slots p dateBase durationMins = [])
    (hfast : ∀ startT endT, rt = some (startT, endT) →
      (evaluate_specific_time ps startT endT).success = false) :
    find_common_time_slots (collect_available_slots ps dateBase durationMins)
      = [] ∧
    (negotiate_meeting oracle ps dateBase durationMins rt).1
      = create_failure_response noSlotsReason ∧
    (negotiate_meeting oracle ps dateBase durationMins rt).1.success = false ∧
    (negotiate_meeting oracle ps dateBase durationMins
      rt).1.alternativesConsidered = [] ∧
    ∃ r, (negotiate_meeting oracle ps dateBase durationMins rt).1.failureReason
        = some r ∧ r ≠ "" := by
  have hentry : (p.email, ([] : List AvailableSlot))
      ∈ collect_available_slots ps dateBase durationMins := by
    rw [collect_available_slots]
    apply List.mem_map.2
    refine ⟨p, hp, ?_⟩
    rw [hempty]
  have hcommon : find_common_time_slots
      (collect_available_slots ps dateBase durationMins) = [] :=
    find_common_of_empty_entry hentry rfl
  have halts : find_alternative_slots ps dateBase durationMins = [] := by
    rw [find_alternative_slots]
    rw [hcommon]
    rfl
  have hres : negotiate_meeting oracle ps dateBase durationMins rt
      = (create_failure_response noSlotsReason, true) := by
    rcases rt with _ | ⟨s, e⟩
    · rw [negotiate_meeting]
      dsimp only
      rw [halts]
      rfl
    · rw [negotiate_meeting]
      dsimp only
      rw [hfast s e rfl]
      simp only [Bool.false_eq_true, if_false]
      rw [halts]
      rfl
  refine ⟨hcommon, by rw [hres], by rw [hres]; rfl, by rw [hres]; rfl,
    noSlotsReason, by rw [hres]; rfl, by decide⟩

/-- Witness for C9: a fully blocked participant, no requested time. -/
theorem C9_empty_availability_witness :
    (negotiate_meeting none [busyAll] 0 30 none).1
      = create_failure_response noSlotsReason :=
  (C9_empty_availability none [busyAll] 0 30 none busyAll (by simp)
      busyAll_no_slots (fun s e h => Option.noConfusion h)).2.1
